import Mathlib

/-!
Shallow embedding of `src/src/tcp_ahs.c` (TCP AHS congestion control, a
static-window variant of TCP Veno) and proofs about its handlers.

Modelling conventions:
* `u8` flags that the C code only ever assigns 0/1 and tests for zero are
  modelled as `Bool` (`true` ↔ nonzero).
* `u32` fields are `Nat`; the `s32` argument `rtt_us` is `Int`.  The only
  assignment of an `s32` to a `u32` (`ahs->rtt = rtt_us`) happens under the
  guard `rtt_us > 0`, so a positive `s32` always fits in a `u32` and the
  assignment is `Int.toNat` with no truncation.
* The host's `struct tcp_sock` is reduced to the one field the module
  touches, `snd_cwnd`.
* `tcp_veno_cong_avoid` is an external collaborator (the baseline Veno
  algorithm of the host kernel, not part of this repository); it is passed
  in as an arbitrary function that rewrites the `tcp_sock` part of the
  socket, which is what it is given write access to at this call site.
-/

namespace TcpAhs

/-- `#define TCP_AHS_INIT_RTT 1000000` (1 second, in microseconds). -/
def TCP_AHS_INIT_RTT : Nat := 1000000

/-- `#define DEFAULT_AHS_WINDOW_SIZE 65000`. -/
def DEFAULT_AHS_WINDOW_SIZE : Nat := 65000

/-- The fields of the host `struct tcp_sock` that this module reads or
writes: only `snd_cwnd`. -/
structure TcpSock where
  snd_cwnd : Nat
  deriving Repr, DecidableEq

/-- `struct ahs` from the source: `ahs_en`, `if_cong`, `rtt_min`, `rtt`.
In addition, `tcp_ahs_cong_avoid` dereferences `ahs->ezs_en`, a member that
is NOT declared in `struct ahs` (as written the C file does not compile).
Following the use site we model `ezs_en` as a fifth, distinct field that no
handler of this module ever writes, so its value is whatever the
per-connection private area happens to hold. -/
structure Ahs where
  ahs_en : Bool
  if_cong : Bool
  rtt_min : Nat
  rtt : Nat
  ezs_en : Bool
  deriving Repr, DecidableEq

/-- A socket as seen by this module: the host tcp fields plus the
per-connection private congestion-control area (`inet_csk_ca`). -/
structure Sock where
  tp : TcpSock
  ahs : Ahs
  deriving Repr, DecidableEq

/-- `tcp_ahs_init`: sets `ahs_en = 1`, `if_cong = 0`,
`rtt_min = rtt = TCP_AHS_INIT_RTT`.  It writes nothing else; in particular
the (undeclared) `ezs_en` byte is left as it was. -/
def tcp_ahs_init (sk : Sock) : Sock :=
  { sk with ahs := { sk.ahs with
      ahs_en := true
      if_cong := false
      rtt_min := TCP_AHS_INIT_RTT
      rtt := TCP_AHS_INIT_RTT } }

/-- `tcp_ahs_pkts_acked`: if `rtt_us > 0` store it into `ahs->rtt`; then
`ahs->rtt_min = min(ahs->rtt_min, ahs->rtt)`; then
`tp->snd_cwnd = DEFAULT_AHS_WINDOW_SIZE`.  The `cnt` argument is unused by
the body, exactly as in the source. -/
def tcp_ahs_pkts_acked (sk : Sock) (cnt : Nat) (rtt_us : Int) : Sock :=
  let rtt1 : Nat := if rtt_us > 0 then rtt_us.toNat else sk.ahs.rtt
  let rtt_min1 : Nat := min sk.ahs.rtt_min rtt1
  { tp := { snd_cwnd := DEFAULT_AHS_WINDOW_SIZE }
    ahs := { sk.ahs with rtt := rtt1, rtt_min := rtt_min1 } }

/-- `tcp_ahs_undo_cwnd`: returns `DEFAULT_AHS_WINDOW_SIZE`, no writes.
State-passing embedding: the unchanged socket is returned alongside the
`u32` result. -/
def tcp_ahs_undo_cwnd (sk : Sock) : Sock × Nat :=
  (sk, DEFAULT_AHS_WINDOW_SIZE)

/-- `tcp_ahs_state`: unconditionally sets `ahs->ahs_en = 1`; the
`ca_state` argument is not consulted. -/
def tcp_ahs_state (sk : Sock) (ca_state : Nat) : Sock :=
  { sk with ahs := { sk.ahs with ahs_en := true } }

/-- `tcp_ahs_cwnd_event`: unconditionally sets
`tp->snd_cwnd = DEFAULT_AHS_WINDOW_SIZE`; the event kind is not consulted. -/
def tcp_ahs_cwnd_event (sk : Sock) (event : Nat) : Sock :=
  { sk with tp := { snd_cwnd := DEFAULT_AHS_WINDOW_SIZE } }

/-- `tcp_ahs_cong_avoid`: `if (!ahs->ezs_en) { tcp_veno_cong_avoid(sk, ack,
acked); return; } tp->snd_cwnd = DEFAULT_AHS_WINDOW_SIZE;`.
Note the guard reads `ezs_en`, not the enable flag `ahs_en` that every
other handler uses.  `veno` is the external baseline algorithm; at this
call site it is granted write access to the `tcp_sock` fields. -/
def tcp_ahs_cong_avoid (veno : Sock → Nat → Nat → TcpSock)
    (sk : Sock) (ack : Nat) (acked : Nat) : Sock :=
  if !sk.ahs.ezs_en then
    { sk with tp := veno sk ack acked }
  else
    { sk with tp := { snd_cwnd := DEFAULT_AHS_WINDOW_SIZE } }

/-- `tcp_ahs_ssthresh`: returns `DEFAULT_AHS_WINDOW_SIZE`, no writes. -/
def tcp_ahs_ssthresh (sk : Sock) : Sock × Nat :=
  (sk, DEFAULT_AHS_WINDOW_SIZE)

/-- One handler invocation by the host, for reachability arguments.  A
`congAvoid` event carries the baseline algorithm the host links against,
so a trace may mix arbitrary baselines. -/
inductive Event where
  | pktsAcked (cnt : Nat) (rtt_us : Int)
  | caState (ca_state : Nat)
  | cwndEvent (ev : Nat)
  | congAvoid (veno : Sock → Nat → Nat → TcpSock) (ack : Nat) (acked : Nat)
  | ssthreshQuery
  | undoCwndQuery

/-- Dispatch one host event to the corresponding handler. -/
def step (sk : Sock) : Event → Sock
  | Event.pktsAcked cnt rtt_us => tcp_ahs_pkts_acked sk cnt rtt_us
  | Event.caState cs => tcp_ahs_state sk cs
  | Event.cwndEvent ev => tcp_ahs_cwnd_event sk ev
  | Event.congAvoid veno ack acked => tcp_ahs_cong_avoid veno sk ack acked
  | Event.ssthreshQuery => (tcp_ahs_ssthresh sk).1
  | Event.undoCwndQuery => (tcp_ahs_undo_cwnd sk).1

/-- Run a finite trace of host events. -/
def run (sk : Sock) (evs : List Event) : Sock :=
  evs.foldl step sk

/-- A trace of `tcp_ahs_pkts_acked` calls only (for the min-RTT claim):
each element is the `(cnt, rtt_us)` argument pair of one call. -/
def runAcks (sk : Sock) (l : List (Nat × Int)) : Sock :=
  l.foldl (fun s c => tcp_ahs_pkts_acked s c.1 c.2) sk

/-- Stated from the spec's words, for comparison with the code: the minimum
of `INITIAL_RTT_ESTIMATE` and every strictly positive `rtt_sample` in the
trace. -/
def spec_min_rtt (l : List (Nat × Int)) : Nat :=
  l.foldl (fun m c => if 0 < c.2 then min m c.2.toNat else m) TCP_AHS_INIT_RTT

/-! ### Helper lemmas -/

/-- One `pkts_acked` call keeps `rtt_min ≤ rtt`, and in fact establishes it
unconditionally. -/
lemma pkts_acked_rtt_min_le (sk : Sock) (cnt : Nat) (rtt_us : Int) :
    (tcp_ahs_pkts_acked sk cnt rtt_us).ahs.rtt_min
      ≤ (tcp_ahs_pkts_acked sk cnt rtt_us).ahs.rtt := by
  simp [tcp_ahs_pkts_acked]

/-- Every handler preserves `rtt_min ≤ rtt`. -/
lemma step_rtt_min_le (sk : Sock) (e : Event)
    (h : sk.ahs.rtt_min ≤ sk.ahs.rtt) :
    (step sk e).ahs.rtt_min ≤ (step sk e).ahs.rtt := by
  cases e with
  | pktsAcked cnt rtt_us => exact pkts_acked_rtt_min_le sk cnt rtt_us
  | caState cs => simpa [step, tcp_ahs_state] using h
  | cwndEvent ev => simpa [step, tcp_ahs_cwnd_event] using h
  | congAvoid veno ack acked =>
      by_cases hb : sk.ahs.ezs_en <;>
        simpa [step, tcp_ahs_cong_avoid, hb] using h
  | ssthreshQuery => simpa [step, tcp_ahs_ssthresh] using h
  | undoCwndQuery => simpa [step, tcp_ahs_undo_cwnd] using h

/-- `rtt_min ≤ rtt` is preserved by any finite trace. -/
lemma run_rtt_min_le (evs : List Event) :
    ∀ sk : Sock, sk.ahs.rtt_min ≤ sk.ahs.rtt →
      (run sk evs).ahs.rtt_min ≤ (run sk evs).ahs.rtt := by
  induction evs with
  | nil => intro sk h; simpa [run] using h
  | cons e evs ih =>
      intro sk h
      have h1 := step_rtt_min_le sk e h
      simpa [run, List.foldl_cons] using ih (step sk e) h1

/-- No handler clears `ahs_en` once it is set. -/
lemma step_ahs_en (sk : Sock) (e : Event) (h : sk.ahs.ahs_en = true) :
    (step sk e).ahs.ahs_en = true := by
  cases e with
  | pktsAcked cnt rtt_us => simpa [step, tcp_ahs_pkts_acked] using h
  | caState cs => simp [step, tcp_ahs_state]
  | cwndEvent ev => simpa [step, tcp_ahs_cwnd_event] using h
  | congAvoid veno ack acked =>
      by_cases hb : sk.ahs.ezs_en <;>
        simpa [step, tcp_ahs_cong_avoid, hb] using h
  | ssthreshQuery => simpa [step, tcp_ahs_ssthresh] using h
  | undoCwndQuery => simpa [step, tcp_ahs_undo_cwnd] using h

/-- `ahs_en = true` is preserved by any finite trace. -/
lemma run_ahs_en (evs : List Event) :
    ∀ sk : Sock, sk.ahs.ahs_en = true → (run sk evs).ahs.ahs_en = true := by
  induction evs with
  | nil => intro sk h; simpa [run] using h
  | cons e evs ih =>
      intro sk h
      simpa [run, List.foldl_cons] using ih (step sk e) (step_ahs_en sk e h)

/-- No handler writes `if_cong` at all. -/
lemma step_if_cong (sk : Sock) (e : Event) :
    (step sk e).ahs.if_cong = sk.ahs.if_cong := by
  cases e with
  | pktsAcked cnt rtt_us => simp [step, tcp_ahs_pkts_acked]
  | caState cs => simp [step, tcp_ahs_state]
  | cwndEvent ev => simp [step, tcp_ahs_cwnd_event]
  | congAvoid veno ack acked =>
      by_cases hb : sk.ahs.ezs_en <;> simp [step, tcp_ahs_cong_avoid, hb]
  | ssthreshQuery => simp [step, tcp_ahs_ssthresh]
  | undoCwndQuery => simp [step, tcp_ahs_undo_cwnd]

/-- `if_cong` is constant along any finite trace. -/
lemma run_if_cong (evs : List Event) :
    ∀ sk : Sock, (run sk evs).ahs.if_cong = sk.ahs.if_cong := by
  induction evs with
  | nil => intro sk; simp [run]
  | cons e evs ih =>
      intro sk
      calc (run sk (e :: evs)).ahs.if_cong
          = (run (step sk e) evs).ahs.if_cong := by simp [run, List.foldl_cons]
        _ = (step sk e).ahs.if_cong := ih (step sk e)
        _ = sk.ahs.if_cong := step_if_cong sk e

/-- Running the code's `pkts_acked` over a trace computes the same running
minimum as the spec's fold, for any start state with `rtt_min ≤ rtt`. -/
lemma runAcks_rtt_min (l : List (Nat × Int)) :
    ∀ sk : Sock, sk.ahs.rtt_min ≤ sk.ahs.rtt →
      (runAcks sk l).ahs.rtt_min
        = l.foldl (fun m c => if 0 < c.2 then min m c.2.toNat else m)
            sk.ahs.rtt_min := by
  induction l with
  | nil => intro sk h; simp [runAcks]
  | cons c l ih =>
      intro sk h
      have hstep : runAcks sk (c :: l) = runAcks (tcp_ahs_pkts_acked sk c.1 c.2) l := by
        simp [runAcks, List.foldl_cons]
      by_cases hc : 0 < c.2
      · have hmin : (tcp_ahs_pkts_acked sk c.1 c.2).ahs.rtt_min
            = min sk.ahs.rtt_min c.2.toNat := by
          simp [tcp_ahs_pkts_acked, hc]
        rw [hstep, ih _ (pkts_acked_rtt_min_le sk c.1 c.2), hmin]
        simp [List.foldl_cons, hc]
      · have hmin : (tcp_ahs_pkts_acked sk c.1 c.2).ahs.rtt_min
            = sk.ahs.rtt_min := by
          simp [tcp_ahs_pkts_acked, hc, Nat.min_eq_left h]
        rw [hstep, ih _ (pkts_acked_rtt_min_le sk c.1 c.2), hmin]
        simp [List.foldl_cons, hc]

/-! ### Claim theorems -/

/-- Socket with the enable flag `ahs_en` cleared but the (undeclared)
`ezs_en` byte nonzero. -/
def c1_sk : Sock :=
  { tp := { snd_cwnd := 10 }
    ahs := { ahs_en := false, if_cong := false, rtt_min := 5, rtt := 5, ezs_en := true } }

/-- A baseline algorithm whose result is distinguishable from the static
window. -/
def c1_veno : Sock → Nat → Nat → TcpSock := fun _ _ _ => { snd_cwnd := 123 }

/-- C1: refuted on the code as written.  `tcp_ahs_cong_avoid` guards on the
undeclared `ezs_en` byte, not on the enable flag `ahs_en`: on a socket with
`ahs_en = false` (and `ezs_en` nonzero) it does NOT delegate to the baseline
— the window is forced to `DEFAULT_AHS_WINDOW_SIZE`, not to the baseline's
123.  The code contradicts its own comment ("if ahs is not enabled, default
to veno"): `ezs_en` is a slip for `ahs_en` (as member of `struct ahs` it
does not even exist, so the C file does not compile). -/
theorem cong_avoid_ignores_enable_flag :
    c1_sk.ahs.ahs_en = false ∧
    (tcp_ahs_cong_avoid c1_veno c1_sk 1 1).tp.snd_cwnd = DEFAULT_AHS_WINDOW_SIZE ∧
    (tcp_ahs_cong_avoid c1_veno c1_sk 1 1).tp.snd_cwnd ≠ (c1_veno c1_sk 1 1).snd_cwnd :=
  ⟨rfl, rfl, by decide⟩

/-- Socket with the enable flag `ahs_en` set but the (undeclared) `ezs_en`
byte zero. -/
def c2_sk : Sock :=
  { tp := { snd_cwnd := 10 }
    ahs := { ahs_en := true, if_cong := false, rtt_min := 5, rtt := 5, ezs_en := false } }

/-- A baseline algorithm whose result is distinguishable from the static
window. -/
def c2_veno : Sock → Nat → Nat → TcpSock := fun _ _ _ => { snd_cwnd := 123 }

/-- C2: refuted on the code as written, for the `cong_avoid` branch of the
claim.  With the enable flag `ahs_en = true` but the undeclared `ezs_en`
byte zero, `tcp_ahs_cong_avoid` delegates to the baseline, so the post-call
window is the baseline's 123, not `DEFAULT_AHS_WINDOW_SIZE` — the same
`ezs_en`-for-`ahs_en` slip as in the C1 analysis.  (`tcp_ahs_pkts_acked`
and `tcp_ahs_cwnd_event` do force the static window unconditionally; see
the other theorems.) -/
theorem cong_avoid_enabled_not_forced_static :
    c2_sk.ahs.ahs_en = true ∧
    (tcp_ahs_cong_avoid c2_veno c2_sk 1 1).tp.snd_cwnd = 123 ∧
    (tcp_ahs_cong_avoid c2_veno c2_sk 1 1).tp.snd_cwnd ≠ DEFAULT_AHS_WINDOW_SIZE :=
  ⟨rfl, rfl, by decide⟩

/-- C3: after `tcp_ahs_init`, for every finite trace of
`tcp_ahs_pkts_acked` calls, `rtt_min` equals the minimum of
`TCP_AHS_INIT_RTT` (1 second) and every strictly positive `rtt_us` sample
of the trace (the spec's fold `spec_min_rtt`). -/
theorem rtt_min_eq_spec_min_rtt (sk : Sock) (l : List (Nat × Int)) :
    (runAcks (tcp_ahs_init sk) l).ahs.rtt_min = spec_min_rtt l := by
  have h := runAcks_rtt_min l (tcp_ahs_init sk) (by simp [tcp_ahs_init])
  simpa [spec_min_rtt, tcp_ahs_init] using h

/-- C4: `tcp_ahs_ssthresh` and `tcp_ahs_undo_cwnd` return 65000 on every
socket — including one `tcp_ahs_init` was never called on — and leave the
whole socket (congestion state and window fields) unchanged. -/
theorem ssthresh_undo_cwnd_const (sk : Sock) :
    tcp_ahs_ssthresh sk = (sk, 65000) ∧ tcp_ahs_undo_cwnd sk = (sk, 65000) :=
  ⟨rfl, rfl⟩

/-- C5: after `tcp_ahs_init` on any socket, `ahs_en = true`,
`if_cong = false`, and `rtt_min = rtt = TCP_AHS_INIT_RTT` (1 second). -/
theorem init_post (sk : Sock) :
    (tcp_ahs_init sk).ahs.ahs_en = true ∧
    (tcp_ahs_init sk).ahs.if_cong = false ∧
    (tcp_ahs_init sk).ahs.rtt_min = TCP_AHS_INIT_RTT ∧
    (tcp_ahs_init sk).ahs.rtt = TCP_AHS_INIT_RTT :=
  ⟨rfl, rfl, rfl, rfl⟩

/-- C6: in every state reachable from `tcp_ahs_init` by any finite trace of
handler calls, `rtt_min ≤ rtt`; moreover every single handler preserves
this relation from any state satisfying it. -/
theorem rtt_min_le_rtt_reachable (sk : Sock) (evs : List Event)
    (s2 : Sock) (e : Event) :
    (run (tcp_ahs_init sk) evs).ahs.rtt_min
        ≤ (run (tcp_ahs_init sk) evs).ahs.rtt ∧
    (s2.ahs.rtt_min ≤ s2.ahs.rtt →
        (step s2 e).ahs.rtt_min ≤ (step s2 e).ahs.rtt) :=
  ⟨run_rtt_min_le evs (tcp_ahs_init sk) (by simp [tcp_ahs_init]),
   step_rtt_min_le s2 e⟩

/-- Socket used to instantiate the C6 theorem on concrete data. -/
def c6_sk : Sock :=
  { tp := { snd_cwnd := 0 }
    ahs := { ahs_en := false, if_cong := true, rtt_min := 7, rtt := 9, ezs_en := false } }

/-- C6 witness: the theorem applied at a concrete socket, a one-event trace
and a concrete handler call, with the hypothesis `7 ≤ 9` discharged by
computation. -/
theorem rtt_min_le_rtt_reachable_witness :
    ((run (tcp_ahs_init c6_sk) [Event.pktsAcked 2 50]).ahs.rtt_min
        ≤ (run (tcp_ahs_init c6_sk) [Event.pktsAcked 2 50]).ahs.rtt) ∧
    ((step c6_sk (Event.caState 1)).ahs.rtt_min
        ≤ (step c6_sk (Event.caState 1)).ahs.rtt) :=
  ⟨(rtt_min_le_rtt_reachable c6_sk [Event.pktsAcked 2 50] c6_sk (Event.caState 1)).1,
   (rtt_min_le_rtt_reachable c6_sk [Event.pktsAcked 2 50] c6_sk (Event.caState 1)).2
     (by decide)⟩

/-- C7: from `tcp_ahs_init`, `ahs_en = true` holds in every state reachable
by any finite trace of handler calls (no handler clears it), and a single
`tcp_ahs_state` call forces `ahs_en = true` from ANY prior state and any
phase argument. -/
theorem ahs_en_always_true (sk : Sock) (evs : List Event)
    (s2 : Sock) (cs : Nat) :
    (run (tcp_ahs_init sk) evs).ahs.ahs_en = true ∧
    (tcp_ahs_state s2 cs).ahs.ahs_en = true :=
  ⟨run_ahs_en evs (tcp_ahs_init sk) rfl, rfl⟩

/-- C8: a `tcp_ahs_pkts_acked` call with `rtt_us ≤ 0` leaves `rtt`
unchanged. -/
theorem nonpositive_sample_preserves_rtt (sk : Sock) (cnt : Nat)
    (rtt_us : Int) (h : rtt_us ≤ 0) :
    (tcp_ahs_pkts_acked sk cnt rtt_us).ahs.rtt = sk.ahs.rtt := by
  simp [tcp_ahs_pkts_acked, not_lt.mpr h]

/-- Socket used to instantiate the C8 theorem on concrete data. -/
def c8_sk : Sock :=
  { tp := { snd_cwnd := 4 }
    ahs := { ahs_en := true, if_cong := false, rtt_min := 30, rtt := 44, ezs_en := true } }

/-- C8 witness: the theorem applied at a concrete socket with the sample
-5, the hypothesis discharged by computation. -/
theorem nonpositive_sample_preserves_rtt_witness :
    (-5 : Int) ≤ 0 ∧
    (tcp_ahs_pkts_acked c8_sk 3 (-5)).ahs.rtt = c8_sk.ahs.rtt :=
  ⟨by decide, nonpositive_sample_preserves_rtt c8_sk 3 (-5) (by decide)⟩

/-- C9: `tcp_ahs_init` clears `if_cong` and no handler ever writes it, so
it is `false` in every reachable state under any finite trace of handler
calls. -/
theorem if_cong_stays_false (sk : Sock) (evs : List Event) :
    (run (tcp_ahs_init sk) evs).ahs.if_cong = false := by
  rw [run_if_cong]
  rfl

/-- C10: `tcp_ahs_pkts_acked` never consults its `cnt` argument: two calls
from the same socket with the same sample but arbitrary different counts
produce identical sockets (congestion state and window alike). -/
theorem pkts_acked_cnt_insensitive (sk : Sock) (rtt_us : Int) (c1 c2 : Nat) :
    tcp_ahs_pkts_acked sk c1 rtt_us = tcp_ahs_pkts_acked sk c2 rtt_us :=
  rfl

end TcpAhs
